import Mathlib

/-!
Shallow embedding of `network-scanner.py` (qhazeeem/network-scanner).

The scanner performs blocking network I/O (TCP connects, ICMP pings,
reverse-DNS lookups) and reads wall-clock time.  All of these external
effects are captured in an `Env` oracle: each field records the outcome
the operating system would return for the corresponding call.  The shared
mutable list `self.active_hosts` is threaded explicitly as a state
argument, and each `scan_host` task acts on it as one atomic append (the
granularity CPython's GIL gives `list.append`).
-/

namespace NetworkScanner

/-- Truncating conversion from a rational to an integer, as Python's
`int()` applied to a float: truncation toward zero. -/
def pyInt (q : ℚ) : ℤ := if 0 ≤ q then ⌊q⌋ else ⌈q⌉

/-- Outcomes of the external calls the scanner makes, per address.
`tcp ip port` is `connect_ex((ip, port)) == 0` (any socket exception
collapses to `false`, as the `except` clauses do); `icmp ip` is the
`ping` subprocess exiting with code 0 (any execution failure or timeout
collapses to `false`); `resolve ip` is a successful
`socket.gethostbyaddr(ip)[0]`, `none` when the lookup raises;
`unexpected ip` marks an unexpected exception raised inside the
`try` block of `scan_host` for that address (before the record is
appended); `clockBefore ip` / `clockAfter ip` are the `time.time()`
readings (in seconds) taken around the second `verify_host` call used
for timing; `now ip` is the formatted `datetime.now()` string at
discovery. -/
structure Env where
  tcp : String → Nat → Bool
  icmp : String → Bool
  resolve : String → Option String
  unexpected : String → Bool
  clockBefore : String → ℚ
  clockAfter : String → ℚ
  now : String → String

/-- One network probe attempted by `verify_host`. -/
inductive Probe where
  | tcp (port : Nat)
  | icmp
deriving DecidableEq

/-- The field `self.common_ports = [80, 443, 22, 445, 3389]`. -/
def common_ports : List Nat := [80, 443, 22, 445, 3389]

/-- The TCP ports tried by `verify_host`, in order: `[445, 80, 443]`. -/
def verifyPorts : List Nat := [445, 80, 443]

/-- The loop of `verify_host`, instrumented with the list of probes
attempted: try a TCP connect on each port in order, returning `True` at
the first success without touching the remaining ports; once the port
list is exhausted, fall back to a single ICMP ping. -/
def verifyAux (env : Env) (ip : String) : List Nat → Bool × List Probe
  | [] => (env.icmp ip, [Probe.icmp])
  | p :: ps =>
    if env.tcp ip p then (true, [Probe.tcp p])
    else
      let r := verifyAux env ip ps
      (r.1, Probe.tcp p :: r.2)

/-- The method `verify_host`: TCP connect to ports 445, 80, 443 with a
0.5 s timeout each, short-circuiting on the first success; if all fail,
one ICMP ping with a 1 s timeout, returning `True` iff its exit code is
0; any failure of the ping itself yields `False`. -/
def verify_host (env : Env) (ip : String) : Bool := (verifyAux env ip verifyPorts).1

/-- The probes attempted by one `verify_host` call. -/
def verifyProbes (env : Env) (ip : String) : List Probe := (verifyAux env ip verifyPorts).2

/-- The `services` dict of `get_service_name`. -/
def services : List (Nat × String) :=
  [(80, "HTTP"), (443, "HTTPS"), (22, "SSH"), (445, "SMB"), (3389, "RDP")]

/-- The method `get_service_name`: `services.get(port, "Unknown")`. -/
def get_service_name (port : Nat) : String := (services.lookup port).getD "Unknown"

/-- The entry `f"{port}({service})"` appended for an open port. -/
def portEntry (port : Nat) : String :=
  let svc := get_service_name port
  s!"{port}({svc})"

/-- The loop of `get_open_ports`, instrumented with the list of ports
attempted: exactly one TCP connect per port of the list, appending the
`"port(service)"` entry on success, in the iteration order of the
list; a failed attempt is skipped with no retry. -/
def get_open_portsAux (env : Env) (ip : String) : List Nat → List String × List Nat
  | [] => ([], [])
  | p :: ps =>
    let r := get_open_portsAux env ip ps
    if env.tcp ip p then (portEntry p :: r.1, p :: r.2) else (r.1, p :: r.2)

/-- The method `get_open_ports`: the entries collected over `self.common_ports`. -/
def get_open_ports (env : Env) (ip : String) : List String :=
  (get_open_portsAux env ip common_ports).1

/-- The TCP connect attempts performed by one `get_open_ports` call. -/
def portAttempts (env : Env) (ip : String) : List Nat :=
  (get_open_portsAux env ip common_ports).2

/-- The process-global socket configuration touched by
`socket.setdefaulttimeout`: the default timeout (in seconds) applied to
every socket subsequently created anywhere in the process. -/
structure SocketGlobals where
  defaultTimeout : Option ℚ
deriving DecidableEq

/-- The method `get_hostname`: first sets the process-global default
socket timeout to 1 second, then attempts `socket.gethostbyaddr`; any
failure yields the sentinel `"Unknown"`.  The global assignment happens
before the lookup, so the returned global state carries it whether or
not resolution succeeds, and nothing restores the previous value. -/
def get_hostname (env : Env) (_g : SocketGlobals) (ip : String) : String × SocketGlobals :=
  let g' : SocketGlobals := { defaultTimeout := some 1 }
  match env.resolve ip with
  | some h => (h, g')
  | none => ("Unknown", g')

/-- The hostname value `get_hostname` returns (independent of the global
socket state it is called in). -/
def hostnameOf (env : Env) (ip : String) : String := (env.resolve ip).getD "Unknown"

/-- A `host_info` dict as built by `scan_host`. -/
structure HostInfo where
  ip : String
  hostname : String
  response_time : String
  open_ports : String
  last_seen : String
deriving DecidableEq

/-- The milliseconds recorded for the second `verify_host` call:
`int((time.time() - start_time) * 1000)`. -/
def response_time_ms (env : Env) (ip : String) : ℤ :=
  pyInt ((env.clockAfter ip - env.clockBefore ip) * 1000)

/-- The `host_info` record `scan_host` appends for a live address. -/
def mkHostInfo (env : Env) (ip : String) : HostInfo :=
  let ports := get_open_ports env ip
  { ip := ip
    hostname := hostnameOf env ip
    response_time := s!"{response_time_ms env ip}ms"
    open_ports := if ports.isEmpty then "None" else String.intercalate ", " ports
    last_seen := env.now ip }

/-- The method `scan_host`, as a transformer of the shared
`self.active_hosts` list: verify the address and, when it is live,
build the record and append it.  The whole body runs inside
`try ... except Exception: pass`, so an unexpected exception
(`env.unexpected`, raised during the steps, before the append)
abandons the probe and leaves the collection unchanged; when the
verifier reports not-live, nothing at all happens. -/
def scan_host (env : Env) (ip : String) (active_hosts : List HostInfo) : List HostInfo :=
  if env.unexpected ip then active_hosts
  else if verify_host env ip then active_hosts ++ [mkHostInfo env ip]
  else active_hosts

/-- The splitting loop of Python's `str.split('.')`: cut the character
list at every dot, keeping empty pieces. -/
def splitOnDotAux : List Char → List Char → List String
  | [], acc => [⟨acc.reverse⟩]
  | c :: cs, acc =>
    if c = '.' then ⟨acc.reverse⟩ :: splitOnDotAux cs []
    else splitOnDotAux cs (c :: acc)

/-- Python's `s.split('.')`. -/
def splitOnDot (s : String) : List String := splitOnDotAux s.data []

/-- The numeric value of a decimal digit string, most significant first. -/
def decimalValue (cs : List Char) : Nat :=
  cs.foldl (fun a c => a * 10 + (c.toNat - 48)) 0

/-- One dotted-quad octet as accepted by Python's `ipaddress` module:
digits only, at most three of them, no leading zero, value at most 255;
anything else raises `ValueError`, modelled as `none`. -/
def parseOctet (s : String) : Option Nat :=
  let cs := s.data
  if cs.isEmpty then none
  else if ¬ cs.all Char.isDigit then none
  else if 3 < cs.length then none
  else if 1 < cs.length ∧ cs.headD '0' = '0' then none
  else
    let n := decimalValue cs
    if n ≤ 255 then some n else none

/-- Parse a dotted-quad IPv4 address string to its 32-bit value, the way
`ipaddress.IPv4Address` does; `none` models the `ValueError`. -/
def parseIPv4 (s : String) : Option Nat :=
  match (splitOnDot s).mapM parseOctet with
  | some [a, b, c, d] => some (((a * 256 + b) * 256 + c) * 256 + d)
  | _ => none

/-- The network address computed by
`ipaddress.ip_network(f"{a}/{p}", strict=False)`: the host bits of the
given address are masked off. -/
def networkValue (v p : Nat) : Nat := v - v % 2 ^ (32 - p)

/-- The enumeration `list(network.hosts())` of CPython's `ipaddress`:
every address strictly between the network and broadcast addresses;
degenerate prefixes are special-cased, a /31 yielding both of its
addresses and a /32 yielding its single address. -/
def hostsOfNetwork (net p : Nat) : List Nat :=
  let bcast := net + 2 ^ (32 - p) - 1
  if p = 31 then [net, bcast]
  else if p = 32 then [net]
  else (List.range (bcast - (net + 1))).map fun i => net + 1 + i

/-- The rendering `str(ip)` of an `IPv4Address` with 32-bit value `v`. -/
def ipToString (v : Nat) : String :=
  s!"{v / 16777216 % 256}.{v / 65536 % 256}.{v / 256 % 256}.{v % 256}"

/-- The combination `ipaddress.ip_network(f"{addr}/{p}", strict=False)`
followed by `list(network.hosts())`, the hosts rendered as the strings
`scan_host` receives; `none` models the `ValueError` raised for an
invalid address or prefix. -/
def parseNetwork (addr : String) (p : Nat) : Option (List String) :=
  match parseIPv4 addr with
  | none => none
  | some v =>
    if p ≤ 32 then some ((hostsOfNetwork (networkValue v p) p).map ipToString)
    else none

/-- A host-probe task appends a record iff the verifier reports live and
no unexpected exception interferes with that task. -/
def producesRecord (env : Env) (ip : String) : Bool :=
  !env.unexpected ip && verify_host env ip

/-- The worker pool running one `scan_host` task per scheduled address
over the shared collection: `sched` is the order in which the tasks'
appends take effect (any interleaving of completions), each append
being a single atomic step. -/
def runTasks (env : Env) (sched : List String) (active_hosts : List HostInfo) : List HostInfo :=
  sched.foldl (fun acc ip => scan_host env ip acc) active_hosts

/-- The method `scan_network`, as a transformer of `self.active_hosts`
(which it never clears): parse the network — the `ValueError` of an
invalid specification is caught by the enclosing `except`, which only
prints a message — then run one `scan_host` task per enumerated host
over the shared list (here in submission order; `runTasks` covers the
other schedules).  The second component counts the dispatched
host-probe tasks. -/
def scan_network (env : Env) (addr : String) (p : Nat) (active_hosts : List HostInfo) :
    List HostInfo × Nat :=
  match parseNetwork addr p with
  | none => (active_hosts, 0)
  | some hosts => (runTasks env hosts active_hosts, hosts.length)

/-- The records a single `scan_network` call adds to the collection. -/
def scanRecords (env : Env) (addr : String) (p : Nat) : List HostInfo :=
  match parseNetwork addr p with
  | none => []
  | some hosts => (hosts.filter (producesRecord env)).map (mkHostInfo env)

/-- The error taxonomy surfaced by the interactive layer: the
`ValueError` of network validation, reported as `InvalidNetworkSpec`. -/
inductive PyError where
  | invalidNetworkSpec
deriving DecidableEq

/-- One pass of `main`'s loop after both inputs are read:
`ipaddress.ip_network(f"{addr}/{p}", strict=False)` validates the pair —
its `ValueError` propagates to `main`'s handler before `scan_network`
is ever called — and only then does `scan_network` run.  The `Nat`
component counts the host-probe tasks dispatched during the pass. -/
def mainScanOnce (env : Env) (addr : String) (p : Nat) (active_hosts : List HostInfo) :
    Except PyError (List HostInfo) × Nat :=
  match parseNetwork addr p with
  | none => (Except.error PyError.invalidNetworkSpec, 0)
  | some _ =>
    let r := scan_network env addr p active_hosts
    (Except.ok r.1, r.2)

/-- The sort key `[int(i) for i in x['ip'].split('.')]` of
`display_results` (on the dotted-quad strings records carry, `int`
is exactly the decimal value of each piece). -/
def ipKey (s : String) : List Nat := (splitOnDot s).map fun t => decimalValue t.data

/-- Python's `<` on lists of integers: elementwise comparison, the
first difference decides, and a strict prefix is smaller. -/
def pyListLt : List Nat → List Nat → Bool
  | [], [] => false
  | _ :: _, [] => false
  | [], _ :: _ => true
  | a :: as, b :: bs => if a < b then true else if b < a then false else pyListLt as bs

/-- The guarantee of Python's stable `sorted` comparisons: a row may
precede another iff the second's key is not strictly smaller. -/
def keyLe (x y : HostInfo) : Bool := !pyListLt (ipKey y.ip) (ipKey x.ip)

/-- The ordering `sorted(self.active_hosts, key=...)` of
`display_results` produces: a stable merge sort that never places a row
after one whose key is strictly smaller. -/
def sorted_hosts (hs : List HostInfo) : List HostInfo :=
  hs.mergeSort keyLe

/-- An environment in which no address answers anything. -/
def envDead : Env where
  tcp := fun _ _ => false
  icmp := fun _ => false
  resolve := fun _ => none
  unexpected := fun _ => false
  clockBefore := fun _ => 0
  clockAfter := fun _ => 0
  now := fun _ => "12:00:00"

/-- An environment in which only 10.0.0.1 answers, on TCP port 80. -/
def envOne : Env where
  tcp := fun ip port => ip == "10.0.0.1" && port == 80
  icmp := fun _ => false
  resolve := fun _ => none
  unexpected := fun _ => false
  clockBefore := fun _ => 0
  clockAfter := fun _ => 0
  now := fun _ => "12:00:00"

/-! ### Basic lemmas about the probing loops -/

theorem verifyAux_fst_eq (env : Env) (ip : String) :
    ∀ L : List Nat, (verifyAux env ip L).1 = ((L.any fun p => env.tcp ip p) || env.icmp ip)
  | [] => by simp [verifyAux]
  | p :: ps => by
    cases h : env.tcp ip p <;>
      simp [verifyAux, h, verifyAux_fst_eq env ip ps]

theorem verifyAux_snd_found (env : Env) (ip : String) :
    ∀ (L : List Nat) (p₀ : Nat), L.find? (fun p => env.tcp ip p) = some p₀ →
      (verifyAux env ip L).2 =
        (L.takeWhile fun p => !env.tcp ip p).map Probe.tcp ++ [Probe.tcp p₀]
  | [], p₀ => by simp
  | p :: ps, p₀ => by
    cases h : env.tcp ip p with
    | true =>
      intro hf
      rw [List.find?_cons_of_pos _ h] at hf
      cases hf
      simp [verifyAux, h, List.takeWhile_cons]
    | false =>
      intro hf
      rw [List.find?_cons_of_neg _ (by simp [h])] at hf
      simp [verifyAux, h, List.takeWhile_cons,
        verifyAux_snd_found env ip ps p₀ hf]

theorem verifyAux_snd_allFail (env : Env) (ip : String) :
    ∀ L : List Nat, (∀ p ∈ L, env.tcp ip p = false) →
      (verifyAux env ip L).2 = L.map Probe.tcp ++ [Probe.icmp]
  | [] => by simp [verifyAux]
  | p :: ps => by
    intro hall
    have hp : env.tcp ip p = false := hall p (by simp)
    simp [verifyAux, hp, verifyAux_snd_allFail env ip ps
      (fun q hq => hall q (by simp [hq]))]

theorem get_open_portsAux_eq (env : Env) (ip : String) :
    ∀ L : List Nat,
      get_open_portsAux env ip L = ((L.filter fun p => env.tcp ip p).map portEntry, L)
  | [] => by simp [get_open_portsAux]
  | p :: ps => by
    cases h : env.tcp ip p <;>
      simp [get_open_portsAux, h, List.filter_cons, get_open_portsAux_eq env ip ps]

/-! ### C6 — liveness verifier policy -/

/-- C6: for every address, `verify_host` returns `true` iff either some
TCP connect in the fixed ordered port list succeeds — returning at the
first success, without attempting later ports or the ICMP fallback — or
all TCP attempts fail and the single ICMP echo succeeds; it returns
`false` iff every TCP attempt and the ICMP echo fail. -/
theorem verify_host_liveness_policy (env : Env) (ip : String) :
    (verify_host env ip = true ↔
      ((∃ p ∈ verifyPorts, env.tcp ip p = true) ∨
        ((∀ p ∈ verifyPorts, env.tcp ip p = false) ∧ env.icmp ip = true)))
  ∧ (verify_host env ip = false ↔
      ((∀ p ∈ verifyPorts, env.tcp ip p = false) ∧ env.icmp ip = false))
  ∧ (∀ p₀ : Nat, verifyPorts.find? (fun p => env.tcp ip p) = some p₀ →
      verifyProbes env ip =
        (verifyPorts.takeWhile fun p => !env.tcp ip p).map Probe.tcp ++ [Probe.tcp p₀])
  ∧ ((∀ p ∈ verifyPorts, env.tcp ip p = false) →
      verifyProbes env ip = verifyPorts.map Probe.tcp ++ [Probe.icmp]) := by
  refine ⟨?_, ?_, ?_, ?_⟩
  · rw [verify_host, verifyAux_fst_eq]
    by_cases hany : (verifyPorts.any fun p => env.tcp ip p) = true
    · constructor
      · intro _
        exact Or.inl (by simpa using List.any_eq_true.mp hany)
      · intro _
        simp [hany]
    · have hall : ∀ p ∈ verifyPorts, env.tcp ip p = false := by
        intro p hp
        have := List.any_eq_false.mp (Bool.eq_false_iff.mpr hany) p hp
        simpa using this
      have hany' : (verifyPorts.any fun p => env.tcp ip p) = false :=
        Bool.eq_false_iff.mpr hany
      rw [hany']
      simp only [Bool.false_or]
      constructor
      · intro hicmp
        exact Or.inr ⟨hall, hicmp⟩
      · rintro (⟨p, hp, htcp⟩ | ⟨_, hicmp⟩)
        · rw [hall p hp] at htcp; cases htcp
        · exact hicmp
  · rw [verify_host, verifyAux_fst_eq]
    constructor
    · intro h
      have h1 := (Bool.or_eq_false_iff.mp h).1
      have h2 := (Bool.or_eq_false_iff.mp h).2
      exact ⟨fun p hp => by simpa using List.any_eq_false.mp h1 p hp, h2⟩
    · rintro ⟨hall, hicmp⟩
      rw [Bool.or_eq_false_iff]
      exact ⟨List.any_eq_false.mpr (fun p hp => by simp [hall p hp]), hicmp⟩
  · intro p₀ hf
    exact verifyAux_snd_found env ip verifyPorts p₀ hf
  · intro hall
    exact verifyAux_snd_allFail env ip verifyPorts hall

/-- Witness for C6 at a concrete environment: 10.0.0.1 answers on the
second verification port, so the verifier reports live and the probes
stop at that port. -/
theorem verify_host_liveness_policy_witness :
    verifyPorts.find? (fun p => envOne.tcp "10.0.0.1" p) = some 80 ∧
      verifyProbes envOne "10.0.0.1" =
        (verifyPorts.takeWhile fun p => !envOne.tcp "10.0.0.1" p).map Probe.tcp ++
          [Probe.tcp 80] :=
  ⟨by decide, (verify_host_liveness_policy envOne "10.0.0.1").2.2.1 80 (by decide)⟩

/-! ### C7 — port scanner policy -/

/-- C7: for every address, `get_open_ports` performs exactly one TCP
connect attempt per port of the fixed list `[80, 443, 22, 445, 3389]`
and returns the `"port(service)"` entries — services HTTP, HTTPS, SSH,
SMB, RDP, and `"Unknown"` for any port outside the fixed set — for
exactly the ports whose single attempt succeeded, in the fixed
iteration order; two calls whose connect outcomes agree on the port set
yield the same ordered list. -/
theorem get_open_ports_policy (env : Env) (ip : String) :
    portAttempts env ip = common_ports
  ∧ get_open_ports env ip = (common_ports.filter fun p => env.tcp ip p).map portEntry
  ∧ (get_service_name 80 = "HTTP" ∧ get_service_name 443 = "HTTPS" ∧
      get_service_name 22 = "SSH" ∧ get_service_name 445 = "SMB" ∧
      get_service_name 3389 = "RDP" ∧
      ∀ q : Nat, q ∉ common_ports → get_service_name q = "Unknown")
  ∧ (∀ env2 : Env, (∀ p ∈ common_ports, env2.tcp ip p = env.tcp ip p) →
      get_open_ports env2 ip = get_open_ports env ip) := by
  refine ⟨?_, ?_, ⟨rfl, rfl, rfl, rfl, rfl, ?_⟩, ?_⟩
  · rw [portAttempts, get_open_portsAux_eq]
  · rw [get_open_ports, get_open_portsAux_eq]
  · intro q hq
    simp only [common_ports, List.mem_cons, List.not_mem_nil, or_false, not_or] at hq
    obtain ⟨h80, h443, h22, h445, h3389⟩ := hq
    have e80 : (q == 80) = false := beq_eq_false_iff_ne.mpr h80
    have e443 : (q == 443) = false := beq_eq_false_iff_ne.mpr h443
    have e22 : (q == 22) = false := beq_eq_false_iff_ne.mpr h22
    have e445 : (q == 445) = false := beq_eq_false_iff_ne.mpr h445
    have e3389 : (q == 3389) = false := beq_eq_false_iff_ne.mpr h3389
    simp [get_service_name, services, List.lookup, e80, e443, e22, e445, e3389]
  · intro env2 hagree
    rw [get_open_ports, get_open_portsAux_eq, get_open_ports, get_open_portsAux_eq]
    rw [List.filter_congr hagree]

/-- Witness for C7: against a fixed port configuration for 10.0.0.1,
a second call in an otherwise different environment with the same
connect outcomes returns the same ordered list. -/
theorem get_open_ports_policy_witness :
    (∀ p ∈ common_ports,
        ({ envOne with icmp := fun _ => true } : Env).tcp "10.0.0.1" p =
          envOne.tcp "10.0.0.1" p) ∧
      get_open_ports { envOne with icmp := fun _ => true } "10.0.0.1" =
        get_open_ports envOne "10.0.0.1" :=
  ⟨by decide, (get_open_ports_policy envOne "10.0.0.1").2.2.2
    { envOne with icmp := fun _ => true } (by decide)⟩

/-! ### C1 — the host prober's record -/

/-- C1: for every address confirmed live (and not hit by an unexpected
exception), `scan_host` appends exactly one record; its hostname is the
resolved name, the sentinel `"Unknown"` when resolution fails; its
response time is the integer number of milliseconds, at least 0 when
the clock does not run backwards, obtained by timing the second
`verify_host` invocation; and its open-ports field is determined by the
ordered, possibly empty list of `"port(service)"` entries
(serialised comma-joined, with `'None'` standing for the empty list). -/
theorem scan_host_live_creates_record (env : Env) (ip : String) (active : List HostInfo)
    (hun : env.unexpected ip = false) (hlive : verify_host env ip = true)
    (hclock : env.clockBefore ip ≤ env.clockAfter ip) :
    scan_host env ip active = active ++ [mkHostInfo env ip]
  ∧ ((mkHostInfo env ip).hostname = (env.resolve ip).getD "Unknown"
      ∧ (env.resolve ip = none → (mkHostInfo env ip).hostname = "Unknown")
      ∧ ∀ g : SocketGlobals, (get_hostname env g ip).1 = (mkHostInfo env ip).hostname)
  ∧ (0 ≤ response_time_ms env ip
      ∧ (mkHostInfo env ip).response_time = toString (response_time_ms env ip) ++ "ms")
  ∧ ((mkHostInfo env ip).open_ports =
        (if (get_open_ports env ip).isEmpty then "None"
          else String.intercalate ", " (get_open_ports env ip))
      ∧ ∀ e ∈ get_open_ports env ip,
          ∃ p ∈ common_ports, env.tcp ip p = true ∧ e = portEntry p) := by
  have hq : (0 : ℚ) ≤ (env.clockAfter ip - env.clockBefore ip) * 1000 :=
    mul_nonneg (sub_nonneg.mpr hclock) (by norm_num)
  refine ⟨?_, ⟨rfl, ?_, ?_⟩, ⟨?_, rfl⟩, ⟨rfl, ?_⟩⟩
  · simp [scan_host, hun, hlive]
  · intro hres
    simp [mkHostInfo, hostnameOf, hres]
  · intro g
    cases hres : env.resolve ip <;>
      simp [get_hostname, hres, mkHostInfo, hostnameOf]
  · rw [response_time_ms, pyInt, if_pos hq]
    exact Int.floor_nonneg.mpr hq
  · intro e he
    rw [get_open_ports, get_open_portsAux_eq] at he
    simp only [List.mem_map, List.mem_filter] at he
    obtain ⟨p, ⟨hmem, htcp⟩, rfl⟩ := he
    exact ⟨p, hmem, htcp, rfl⟩

/-- Witness for C1: the live address 10.0.0.1 yields exactly one
appended record with a nonnegative response time. -/
theorem scan_host_live_creates_record_witness :
    (envOne.unexpected "10.0.0.1" = false ∧ verify_host envOne "10.0.0.1" = true ∧
        envOne.clockBefore "10.0.0.1" ≤ envOne.clockAfter "10.0.0.1")
  ∧ scan_host envOne "10.0.0.1" [] = [] ++ [mkHostInfo envOne "10.0.0.1"]
  ∧ 0 ≤ response_time_ms envOne "10.0.0.1" := by
  have h := scan_host_live_creates_record envOne "10.0.0.1" []
    (by decide) (by decide) (by decide)
  exact ⟨⟨by decide, by decide, by decide⟩, h.1, h.2.2.1.1⟩

/-! ### C8 — not-live and unexpected failures produce nothing -/

/-- C8: for every address, if the verifier reports not-live, `scan_host`
leaves the shared collection untouched; an unexpected failure during its
steps likewise abandons the probe silently with no record; and in every
case the task's only possible effect is appending its own single record,
so it can never abort or disturb other hosts' probes. -/
theorem scan_host_silent_abandonment (env : Env) (ip : String) (active : List HostInfo) :
    (verify_host env ip = false → scan_host env ip active = active)
  ∧ (env.unexpected ip = true → scan_host env ip active = active)
  ∧ (scan_host env ip active = active ∨
      scan_host env ip active = active ++ [mkHostInfo env ip]) := by
  refine ⟨?_, ?_, ?_⟩
  · intro h
    by_cases hu : env.unexpected ip = true <;> simp [scan_host, hu, h]
  · intro h
    simp [scan_host, h]
  · by_cases hu : env.unexpected ip = true
    · exact Or.inl (by simp [scan_host, hu])
    · by_cases hv : verify_host env ip = true
      · exact Or.inr (by simp [scan_host, hu, hv])
      · exact Or.inl (by simp [scan_host, hu, hv])

/-- Witness for C8: a dead address produces no record. -/
theorem scan_host_silent_abandonment_witness :
    verify_host envDead "10.0.0.9" = false ∧ scan_host envDead "10.0.0.9" [] = [] :=
  ⟨by decide, (scan_host_silent_abandonment envDead "10.0.0.9" []).1 (by decide)⟩

/-! ### C10 — the reverse-DNS lookup's global side effect -/

/-- C10: every `get_hostname` call sets the process-global default socket
timeout to 1 second, whether or not resolution succeeds; the resulting
global state does not depend on what it was before the call, so the
assignment persists for every socket subsequently created from it; the
returned name is the resolved hostname, or `"Unknown"` on failure. -/
theorem get_hostname_global_timeout (env : Env) (g : SocketGlobals) (ip : String) :
    (get_hostname env g ip).2.defaultTimeout = some 1
  ∧ (∀ g' : SocketGlobals, (get_hostname env g' ip).2 = (get_hostname env g ip).2)
  ∧ (env.resolve ip = none → (get_hostname env g ip).1 = "Unknown")
  ∧ (∀ h : String, env.resolve ip = some h → (get_hostname env g ip).1 = h) := by
  refine ⟨?_, ?_, ?_, ?_⟩ <;> cases hres : env.resolve ip <;>
    simp [get_hostname, hres]

/-- Witness for C10: a failing lookup still leaves the global default
timeout set to 1 second. -/
theorem get_hostname_global_timeout_witness :
    (get_hostname envDead { defaultTimeout := none } "10.0.0.1").2.defaultTimeout = some 1
  ∧ (get_hostname envDead { defaultTimeout := none } "10.0.0.1").1 = "Unknown" := by
  have h := get_hostname_global_timeout envDead { defaultTimeout := none } "10.0.0.1"
  exact ⟨h.1, h.2.2.1 rfl⟩

/-! ### C3 — invalid network specifications -/

/-- C3: for every invalid (address, prefix) input — one on which
`ipaddress.ip_network` raises — the scan pass fails with
`InvalidNetworkSpec` surfaced to `main`'s handler by the validation that
precedes `scan_network`, zero host-probe tasks are dispatched, and the
result collection is untouched. -/
theorem scan_network_invalid_spec (env : Env) (addr : String) (p : Nat)
    (active : List HostInfo) (h : parseNetwork addr p = none) :
    mainScanOnce env addr p active = (Except.error PyError.invalidNetworkSpec, 0)
  ∧ (scan_network env addr p active).1 = active
  ∧ (scan_network env addr p active).2 = 0 := by
  refine ⟨?_, ?_, ?_⟩ <;> simp [mainScanOnce, scan_network, h]

/-- Witness for C3: the invalid specification 999.1.1.1/24 fails with
`InvalidNetworkSpec` and dispatches no probes. -/
theorem scan_network_invalid_spec_witness :
    parseNetwork "999.1.1.1" 24 = none ∧
      mainScanOnce envDead "999.1.1.1" 24 [] =
        (Except.error PyError.invalidNetworkSpec, 0) :=
  ⟨by decide, (scan_network_invalid_spec envDead "999.1.1.1" 24 [] (by decide)).1⟩

/-! ### The effect of a batch of probe tasks on the shared collection -/

theorem scan_host_eq_ite (env : Env) (ip : String) (s : List HostInfo) :
    scan_host env ip s =
      if producesRecord env ip then s ++ [mkHostInfo env ip] else s := by
  by_cases hu : env.unexpected ip = true
  · simp [scan_host, producesRecord, hu]
  · by_cases hv : verify_host env ip = true <;>
      simp [scan_host, producesRecord, hu, hv]

theorem runTasks_eq (env : Env) :
    ∀ (sched : List String) (s : List HostInfo),
      runTasks env sched s = s ++ (sched.filter (producesRecord env)).map (mkHostInfo env)
  | [], s => by simp [runTasks]
  | ip :: ips, s => by
    have h1 : runTasks env (ip :: ips) s = runTasks env ips (scan_host env ip s) := rfl
    rw [h1, runTasks_eq env ips, scan_host_eq_ite]
    by_cases h : producesRecord env ip = true <;>
      simp [List.filter_cons, h]

/-! ### C2 — the result collection across scans -/

/-- C2 counterexample: `scan_network` never clears `self.active_hosts`,
so the record of a previous scan survives into the next scan's final
collection.  Scanning 10.0.0.0/30 (10.0.0.1 live) once from the empty
collection yields one record; running the same scan again on the
resulting collection — exactly what `main`'s loop does with its single
`NetworkScanner` — starts from a non-empty collection and ends with two
records for 10.0.0.1. -/
theorem scan_network_result_not_discarded :
    (scan_network envOne "10.0.0.0" 30 []).1.length = 1
  ∧ ((scan_network envOne "10.0.0.0" 30
        (scan_network envOne "10.0.0.0" 30 []).1).1.countP
      fun r => r.ip == "10.0.0.1") = 2 :=
  ⟨by decide, by decide⟩

/-- C2 (amended): `scan_network` only ever appends to the result
collection it is given — the collection persists across scans instead of
being discarded when the next scan starts — and a scan that does start
from the empty collection (as the first scan of a freshly constructed
scanner does) contains at most one record per address, the enumerated
addresses being pairwise distinct. -/
theorem scan_network_accumulates (env : Env) (addr : String) (p : Nat)
    (s : List HostInfo) (h : ((parseNetwork addr p).getD []).Nodup) :
    (scan_network env addr p s).1 = s ++ scanRecords env addr p
  ∧ ∀ a : String, ((scan_network env addr p []).1.countP fun r => r.ip == a) ≤ 1 := by
  constructor
  · cases hp : parseNetwork addr p with
    | none => simp [scan_network, scanRecords, hp]
    | some hosts => simp [scan_network, scanRecords, hp, runTasks_eq]
  · intro a
    cases hp : parseNetwork addr p with
    | none => simp [scan_network, hp]
    | some hosts =>
      rw [hp] at h
      simp only [Option.getD_some] at h
      simp only [scan_network, hp, runTasks_eq, List.nil_append]
      rw [List.countP_map]
      have hcomp : ((fun r : HostInfo => r.ip == a) ∘ mkHostInfo env) =
          fun ip => ip == a := rfl
      rw [hcomp]
      calc List.countP (fun ip => ip == a) (hosts.filter (producesRecord env))
          = (hosts.filter (producesRecord env)).count a := rfl
        _ ≤ hosts.count a := (List.filter_sublist _).count_le a
        _ ≤ 1 := List.nodup_iff_count_le_one.mp h a

/-- Witness for C2 (amended) at the concrete scan of 10.0.0.0/30. -/
theorem scan_network_accumulates_witness :
    ((parseNetwork "10.0.0.0" 30).getD []).Nodup ∧
      (scan_network envOne "10.0.0.0" 30 []).1 =
        [] ++ scanRecords envOne "10.0.0.0" 30 :=
  ⟨by decide, (scan_network_accumulates envOne "10.0.0.0" 30 [] (by decide)).1⟩

/-! ### C9 — concurrent task completion -/

/-- C9: whatever order the pool's task completions interleave their
atomic appends in, the final collection from an empty start contains
exactly one fully formed record per task whose endpoint was found live —
no lost, duplicated, or partial appends — and its size equals the number
of live findings. -/
theorem concurrent_appends_linearizable (env : Env) (ips sched : List String)
    (hperm : sched.Perm ips) :
    (runTasks env sched []).Perm
      ((ips.filter (producesRecord env)).map (mkHostInfo env))
  ∧ (runTasks env sched []).length = (ips.filter (producesRecord env)).length := by
  have h1 : runTasks env sched [] =
      (sched.filter (producesRecord env)).map (mkHostInfo env) := by
    rw [runTasks_eq]
    simp
  have h2 : ((sched.filter (producesRecord env)).map (mkHostInfo env)).Perm
      ((ips.filter (producesRecord env)).map (mkHostInfo env)) :=
    (hperm.filter _).map _
  refine ⟨h1 ▸ h2, ?_⟩
  rw [h1, List.length_map, (hperm.filter _).length_eq]

/-- Witness for C9: two tasks completing in reversed order still leave
one record per live endpoint. -/
theorem concurrent_appends_linearizable_witness :
    (["10.0.0.2", "10.0.0.1"] : List String).Perm ["10.0.0.1", "10.0.0.2"] ∧
      (runTasks envOne ["10.0.0.2", "10.0.0.1"] []).length =
        ((["10.0.0.1", "10.0.0.2"] : List String).filter (producesRecord envOne)).length :=
  ⟨by decide, (concurrent_appends_linearizable envOne ["10.0.0.1", "10.0.0.2"]
      ["10.0.0.2", "10.0.0.1"] (by decide)).2⟩

/-! ### C4 — host enumeration -/

/-- C4: for every valid (address, prefix) pair with prefix at most 30,
the enumerated host list contains exactly the addresses of the network
other than the network and broadcast addresses, so it has length
`2 ^ (32 - p) - 2`; for prefixes 31 and 32 enumeration completes with
the defined degenerate lists (both addresses, resp. the single one). -/
theorem hosts_enumeration (v p : Nat) (hp : p ≤ 30) :
    ((hostsOfNetwork (networkValue v p) p).length = 2 ^ (32 - p) - 2
  ∧ ∀ x : Nat, x ∈ hostsOfNetwork (networkValue v p) p ↔
      (networkValue v p < x ∧ x < networkValue v p + 2 ^ (32 - p) - 1))
  ∧ ∀ w : Nat, hostsOfNetwork w 31 = [w, w + 1] ∧ hostsOfNetwork w 32 = [w] := by
  have hK : 4 ≤ 2 ^ (32 - p) := by
    calc (4 : Nat) = 2 ^ 2 := by norm_num
    _ ≤ 2 ^ (32 - p) := Nat.pow_le_pow_right (by norm_num) (by omega)
  have h31 : p ≠ 31 := by omega
  have h32 : p ≠ 32 := by omega
  refine ⟨⟨?_, ?_⟩, ?_⟩
  · simp only [hostsOfNetwork, if_neg h31, if_neg h32, List.length_map,
      List.length_range]
    omega
  · intro x
    simp only [hostsOfNetwork, if_neg h31, if_neg h32, List.mem_map,
      List.mem_range]
    constructor
    · rintro ⟨i, hi, rfl⟩
      omega
    · rintro ⟨hx1, hx2⟩
      exact ⟨x - (networkValue v p + 1), by omega, by omega⟩
  · intro w
    constructor
    · norm_num [hostsOfNetwork]
    · norm_num [hostsOfNetwork]

/-- Witness for C4 at the network 10.0.0.0/30: two usable hosts. -/
theorem hosts_enumeration_witness :
    (30 : Nat) ≤ 30 ∧
      (hostsOfNetwork (networkValue 167772160 30) 30).length = 2 ^ (32 - 30) - 2 :=
  ⟨by decide, (hosts_enumeration 167772160 30 (by decide)).1.1⟩

/-! ### The strict order underlying the display sort -/

theorem pyListLt_cons_eq (a b : Nat) (as bs : List Nat) :
    pyListLt (a :: as) (b :: bs) =
      if a < b then true else if b < a then false else pyListLt as bs := rfl

theorem pyListLt_irrefl : ∀ a : List Nat, pyListLt a a = false
  | [] => rfl
  | _ :: xs => by simp [pyListLt_cons_eq, pyListLt_irrefl xs]

theorem pyListLt_trans : ∀ a b c : List Nat,
    pyListLt a b = true → pyListLt b c = true → pyListLt a c = true
  | a, [], _ => by
    intro hab _
    cases a <;> simp [pyListLt] at hab
  | _, _ :: _, [] => by
    intro _ hbc
    simp [pyListLt] at hbc
  | [], _ :: _, _ :: _ => by
    intro _ _
    simp [pyListLt]
  | x :: xs, y :: ys, z :: zs => by
    intro hab hbc
    rw [pyListLt_cons_eq] at hab hbc ⊢
    by_cases h1 : x < y
    · by_cases h2 : y < z
      · rw [if_pos (Nat.lt_trans h1 h2)]
      · by_cases h3 : z < y
        · rw [if_neg h2, if_pos h3] at hbc
          exact absurd hbc (by simp)
        · have hyz : y = z := by omega
          rw [if_pos (hyz ▸ h1)]
    · by_cases h1' : y < x
      · rw [if_neg h1, if_pos h1'] at hab
        exact absurd hab (by simp)
      · have hxy : x = y := by omega
        rw [if_neg h1, if_neg h1'] at hab
        by_cases h2 : y < z
        · rw [if_pos (hxy ▸ h2)]
        · by_cases h3 : z < y
          · rw [if_neg h2, if_pos h3] at hbc
            exact absurd hbc (by simp)
          · rw [if_neg h2, if_neg h3] at hbc
            rw [if_neg (by omega : ¬ x < z), if_neg (by omega : ¬ z < x)]
            exact pyListLt_trans xs ys zs hab hbc

theorem pyListLt_eq_of_not : ∀ a b : List Nat,
    pyListLt a b = false → pyListLt b a = false → a = b
  | [], [] => fun _ _ => rfl
  | [], _ :: _ => fun hab _ => by simp [pyListLt] at hab
  | _ :: _, [] => fun _ hba => by simp [pyListLt] at hba
  | x :: xs, y :: ys => fun hab hba => by
    rw [pyListLt_cons_eq] at hab hba
    by_cases h1 : x < y
    · rw [if_pos h1] at hab
      exact absurd hab (by simp)
    · by_cases h2 : y < x
      · rw [if_pos h2] at hba
        exact absurd hba (by simp)
      · have hxy : x = y := by omega
        rw [if_neg h1, if_neg h2] at hab
        rw [if_neg h2, if_neg h1] at hba
        simp [hxy, pyListLt_eq_of_not xs ys hab hba]

theorem keyLe_trans (a b c : HostInfo) :
    keyLe a b = true → keyLe b c = true → keyLe a c = true := by
  intro hab hbc
  have hab' : pyListLt (ipKey b.ip) (ipKey a.ip) = false := by
    simpa [keyLe] using hab
  have hbc' : pyListLt (ipKey c.ip) (ipKey b.ip) = false := by
    simpa [keyLe] using hbc
  cases h : pyListLt (ipKey c.ip) (ipKey a.ip) with
  | false => simp [keyLe, h]
  | true =>
    exfalso
    cases h4 : pyListLt (ipKey b.ip) (ipKey c.ip) with
    | true =>
      have := pyListLt_trans _ _ _ h4 h
      rw [this] at hab'
      cases hab'
    | false =>
      have heq : ipKey b.ip = ipKey c.ip := pyListLt_eq_of_not _ _ h4 hbc'
      rw [← heq] at h
      rw [h] at hab'
      cases hab'

theorem keyLe_total (a b : HostInfo) : keyLe a b || keyLe b a := by
  cases h1 : pyListLt (ipKey b.ip) (ipKey a.ip) with
  | false => simp [keyLe, h1]
  | true =>
    have h2 : pyListLt (ipKey a.ip) (ipKey b.ip) = false := by
      cases h2 : pyListLt (ipKey a.ip) (ipKey b.ip) with
      | false => rfl
      | true =>
        have := pyListLt_trans _ _ _ h1 h2
        rw [pyListLt_irrefl] at this
        cases this
    simp [keyLe, h2]

/-! ### C5 — the displayed order -/

/-- C5: for any result collection whose addresses have pairwise distinct
octet keys, the displayed order is a permutation of the collection that
is totally ordered ascending by the address's dot-separated octets
compared numerically: row `i` precedes row `j` iff the octet 4-tuple of
row `i`'s address is lexicographically smaller than row `j`'s. -/
theorem display_results_sorted (hs : List HostInfo)
    (h : (hs.map fun r => ipKey r.ip).Nodup) :
    (sorted_hosts hs).Perm hs
  ∧ ∀ (i j : Nat) (hi : i < (sorted_hosts hs).length)
      (hj : j < (sorted_hosts hs).length),
      (i < j ↔ pyListLt (ipKey ((sorted_hosts hs).get ⟨i, hi⟩).ip)
          (ipKey ((sorted_hosts hs).get ⟨j, hj⟩).ip) = true) := by
  have hperm : (sorted_hosts hs).Perm hs := List.mergeSort_perm hs keyLe
  have hpair : (sorted_hosts hs).Pairwise (fun x y => keyLe x y = true) :=
    List.sorted_mergeSort keyLe_trans keyLe_total hs
  have hkeysnodup : ((sorted_hosts hs).map fun r => ipKey r.ip).Nodup :=
    ((hperm.map _).nodup_iff).mpr h
  have hkeyne : (sorted_hosts hs).Pairwise
      (fun x y => ipKey x.ip ≠ ipKey y.ip) := List.pairwise_map.mp hkeysnodup
  have hle := List.pairwise_iff_get.mp hpair
  have hne := List.pairwise_iff_get.mp hkeyne
  refine ⟨hperm, ?_⟩
  intro i j hi hj
  constructor
  · intro hij
    have h1 : keyLe ((sorted_hosts hs).get ⟨i, hi⟩)
        ((sorted_hosts hs).get ⟨j, hj⟩) = true := hle ⟨i, hi⟩ ⟨j, hj⟩ hij
    have h2 : ipKey ((sorted_hosts hs).get ⟨i, hi⟩).ip ≠
        ipKey ((sorted_hosts hs).get ⟨j, hj⟩).ip := hne ⟨i, hi⟩ ⟨j, hj⟩ hij
    have h3 : pyListLt (ipKey ((sorted_hosts hs).get ⟨j, hj⟩).ip)
        (ipKey ((sorted_hosts hs).get ⟨i, hi⟩).ip) = false := by
      simpa [keyLe] using h1
    cases h4 : pyListLt (ipKey ((sorted_hosts hs).get ⟨i, hi⟩).ip)
        (ipKey ((sorted_hosts hs).get ⟨j, hj⟩).ip) with
    | true => rfl
    | false => exact absurd (pyListLt_eq_of_not _ _ h4 h3) h2
  · intro hlt
    rcases Nat.lt_trichotomy i j with hij | hij | hij
    · exact hij
    · exfalso
      subst hij
      rw [pyListLt_irrefl] at hlt
      cases hlt
    · exfalso
      have h1 : keyLe ((sorted_hosts hs).get ⟨j, hj⟩)
          ((sorted_hosts hs).get ⟨i, hi⟩) = true := hle ⟨j, hj⟩ ⟨i, hi⟩ hij
      have h3 : pyListLt (ipKey ((sorted_hosts hs).get ⟨i, hi⟩).ip)
          (ipKey ((sorted_hosts hs).get ⟨j, hj⟩).ip) = false := by
        simpa [keyLe] using h1
      rw [h3] at hlt
      cases hlt

/-- A concrete displayed row whose address would sort wrongly as a string. -/
def recA : HostInfo :=
  { ip := "10.0.0.10", hostname := "Unknown", response_time := "0ms",
    open_ports := "None", last_seen := "12:00:00" }

/-- A concrete displayed row numerically below `recA`. -/
def recB : HostInfo :=
  { ip := "10.0.0.2", hostname := "Unknown", response_time := "0ms",
    open_ports := "None", last_seen := "12:00:00" }

/-- Witness for C5: the rows for 10.0.0.10 and 10.0.0.2 have distinct
octet keys and the displayed order is a permutation of the collection. -/
theorem display_results_sorted_witness :
    ([recA, recB].map fun r => ipKey r.ip).Nodup ∧
      (sorted_hosts [recA, recB]).Perm [recA, recB] :=
  ⟨by decide, (display_results_sorted [recA, recB] (by decide)).1⟩

end NetworkScanner
